import Mathlib

/-!
A shallow embedding of the lan-file-transfer transfer engine
(`src/lantransfer/server.py`, `client.py`, `transfer.py`, `state.py`)
together with theorems settling the specification claims.

Dictionaries are modelled as insertion-ordered association lists with
string keys; file contents are lists of byte values; the SHA-256 digest
is kept abstract as a function parameter `sha : List Nat → String`
(theorems quantify over it).
-/

namespace LanTransfer

/-! ### Dictionary helpers (Python `dict` as an ordered association list) -/

def dictLookup {α : Type} : List (String × α) → String → Option α
  | [], _ => none
  | (k, v) :: rest, key => if k = key then some v else dictLookup rest key

/-- `d[k] = v`: replace in place when the key exists, append otherwise. -/
def dictInsert {α : Type} (m : List (String × α)) (k : String) (v : α) :
    List (String × α) :=
  if (dictLookup m k).isSome then
    m.map (fun p => if p.1 = k then (k, v) else p)
  else
    m ++ [(k, v)]

/-- `del d[k]`. -/
def dictErase {α : Type} (m : List (String × α)) (k : String) :
    List (String × α) :=
  m.filter (fun p => p.1 ≠ k)

/-! ### Python truthiness for optional JSON fields -/

def truthyStr : Option String → Bool
  | none => false
  | some s => s ≠ ""

def truthyInt : Option Int → Bool
  | none => false
  | some n => n ≠ 0

/-! ### Content-Range parsing (server.py `_handle_chunk`, lines 197-205)

Header text is handled as its character list; the separators of the
Python `split` calls (`" "`, `"/"`, `"-"`) are all single characters. -/

/-- Python `str.split(sep)` for a single-character separator. -/
def splitOnChar (sep : Char) : List Char → List (List Char)
  | [] => [[]]
  | c :: rest =>
    let r := splitOnChar sep rest
    if c = sep then [] :: r
    else (c :: r.headD []) :: r.tail

def charsStartsWith : List Char → List Char → Bool
  | _, [] => true
  | [], _ :: _ => false
  | c :: cs, p :: ps => c = p && charsStartsWith cs ps

def isPySpace (c : Char) : Bool :=
  c = ' ' || c = '\t' || c = '\n' || c = '\r' || c = '\x0b' || c = '\x0c'

def digitsToNat (l : List Char) : Option Nat :=
  if l ≠ [] ∧ l.all Char.isDigit then
    some (l.foldl (fun a c => a * 10 + (c.toNat - 48)) 0)
  else none

/-- Python `int()`: strip surrounding whitespace, optional single sign,
then a non-empty run of decimal digits (digit-group underscores are not
modelled). -/
def pyIntOfChars (l : List Char) : Option Int :=
  match ((l.dropWhile isPySpace).reverse.dropWhile isPySpace).reverse with
  | '-' :: ds => (digitsToNat ds).map (fun n => -(n : Int))
  | '+' :: ds => (digitsToNat ds).map (fun n => (n : Int))
  | ds => (digitsToNat ds).map (fun n => (n : Int))

/-- `range_header.split(" ")[1].split("/")[0].split("-")[0]`. -/
def rangeStartToken (h : List Char) : List Char :=
  (splitOnChar '-'
    ((splitOnChar '/'
      (((splitOnChar ' ' h).drop 1).headD [])).headD [])).headD []

/-- `start_byte` as computed by `_handle_chunk`: defaults to 0 when the
header is absent, does not start with `"bytes "`, or the start token does
not parse as an integer. -/
def parseStartByte (rangeHeader : Option String) : Int :=
  if charsStartsWith (rangeHeader.getD "").data ("bytes ".data) then
    match pyIntOfChars (rangeStartToken (rangeHeader.getD "").data) with
    | some n => n
    | none => 0
  else 0

/-! ### Receiver state (server.py `IncomingTransfer`, `TransferServer`) -/

structure IncomingTransfer where
  transferId : String
  filename : String
  totalSize : Int
  expectedHash : String
  receivedBytes : Int := 0
  tempPath : Option String := none
  tempData : List Nat := []
  tempExists : Bool := false
  finalExists : Bool := false
  hashed : List Nat := []
  completed : Bool := false
  error : Option String := none
  deriving DecidableEq, Repr

/-- The receiver's `_transfers` dictionary. -/
abbrev ServerState : Type := List (String × IncomingTransfer)

/-! ### `POST /transfer/init` (server.py lines 124-187) -/

structure InitRequest where
  filename : Option String := none
  size : Option Int := none
  hash : String := ""
  resumeId : Option String := none

inductive InitResponse
  | missingFields
  | resuming (transferId : String) (resumeOffset : Int)
  | ready (transferId : String)
  deriving DecidableEq, Repr

def initStatus : InitResponse → Nat
  | .missingFields => 400
  | .resuming _ _ => 200
  | .ready _ => 200

/-- The resume check of `_handle_init` (lines 142-150): a truthy
`resume_id` naming a registered transfer whose filename and size match
the request. -/
def initResumeHit (st : ServerState) (req : InitRequest) :
    Option (String × IncomingTransfer) :=
  match req.resumeId with
  | none => none
  | some rid =>
    if rid ≠ "" then
      match dictLookup st rid with
      | some existing =>
        if existing.filename = req.filename.getD "" ∧
            existing.totalSize = req.size.getD 0 then
          some (rid, existing)
        else none
      | none => none
    else none

/-- The fresh `IncomingTransfer` registered by `_handle_init`
(lines 152-178). -/
def newTransferOfInit (req : InitRequest) (newId : String) :
    IncomingTransfer :=
  { transferId := newId
    filename := req.filename.getD ""
    totalSize := req.size.getD 0
    expectedHash := req.hash
    tempPath := some ("." ++ newId ++ "_" ++ req.filename.getD "" ++ ".part")
    tempExists := true }

def handleInit (st : ServerState) (req : InitRequest) (newId : String) :
    ServerState × InitResponse :=
  if !(truthyStr req.filename) || !(truthyInt req.size) then
    (st, .missingFields)
  else
    match initResumeHit st req with
    | some (rid, existing) => (st, .resuming rid existing.receivedBytes)
    | none =>
      (dictInsert st newId (newTransferOfInit req newId), .ready newId)

/-! ### `POST /transfer/chunk` (server.py lines 189-244) -/

inductive ChunkResponse
  | invalidId
  | badPosition (expected received : Int)
  | notInitialized
  | ok (received total : Int)
  deriving DecidableEq, Repr

def chunkStatus : ChunkResponse → Nat
  | .ok _ _ => 200
  | _ => 400

/-- The state update of an accepted chunk: append to the temp file, feed
the running hash, advance `received_bytes` by the body length. -/
def applyChunkBody (t : IncomingTransfer) (body : List Nat) : IncomingTransfer :=
  { t with
    tempData := t.tempData ++ body
    receivedBytes := t.receivedBytes + body.length
    hashed := t.hashed ++ body }

def handleChunk (st : ServerState) (transferId : Option String)
    (rangeHeader : Option String) (body : List Nat) :
    ServerState × ChunkResponse :=
  match transferId with
  | none => (st, .invalidId)
  | some tid =>
    if tid = "" then (st, .invalidId)
    else
      match dictLookup st tid with
      | none => (st, .invalidId)
      | some t =>
        if parseStartByte rangeHeader ≠ t.receivedBytes then
          (st, .badPosition t.receivedBytes (parseStartByte rangeHeader))
        else if t.tempPath = none then
          (st, .notInitialized)
        else
          (dictInsert st tid (applyChunkBody t body),
            .ok (applyChunkBody t body).receivedBytes t.totalSize)

/-! ### `POST /transfer/complete` (server.py lines 246-317) -/

inductive CompleteResponse
  | invalidId
  | incomplete (received expected : Int)
  | hashMismatch (expectedHash computedHash : String)
  | completedOk (hashVerified : Bool)
  deriving DecidableEq, Repr

def completeStatus : CompleteResponse → Nat
  | .completedOk _ => 200
  | _ => 400

def isCompletedResponse : CompleteResponse → Bool
  | .completedOk _ => true
  | _ => false

def handleComplete (sha : List Nat → String) (st : ServerState)
    (transferId : Option String) : ServerState × CompleteResponse :=
  match transferId with
  | none => (st, .invalidId)
  | some tid =>
    if tid = "" then (st, .invalidId)
    else
      match dictLookup st tid with
      | none => (st, .invalidId)
      | some t =>
        if t.receivedBytes ≠ t.totalSize then
          (st, .incomplete t.receivedBytes t.totalSize)
        else
          if t.expectedHash ≠ "" ∧ sha t.hashed ≠ t.expectedHash then
            (dictInsert st tid
              { t with
                error := some "Hash mismatch - file may be corrupted"
                tempExists := false },
              .hashMismatch t.expectedHash (sha t.hashed))
          else
            (dictErase st tid, .completedOk (t.expectedHash ≠ ""))

/-! ### `DELETE /transfer/{id}` (server.py lines 338-356) -/

def handleCancel (st : ServerState) (tid : String) : ServerState × Bool :=
  match dictLookup st tid with
  | none => (st, false)
  | some _ => (dictErase st tid, true)

/-- A sequence of `/transfer/chunk` requests for one transfer-id, folded
through the receiver. -/
def runChunks (tid : String) :
    ServerState → List (Option String × List Nat) → ServerState
  | st, [] => st
  | st, (r, b) :: rest => runChunks tid (handleChunk st (some tid) r b).1 rest

/-- A chunk-request sequence in which every request reaching the transfer
fits within the bytes remaining under the declared total size. -/
inductive BoundedReqs (tid : String) :
    ServerState → List (Option String × List Nat) → Prop
  | nil (st : ServerState) : BoundedReqs tid st []
  | cons (st : ServerState) (r : Option String) (b : List Nat)
      (rest : List (Option String × List Nat)) :
      (∀ t, dictLookup st tid = some t →
        (b.length : Int) ≤ t.totalSize - t.receivedBytes) →
      BoundedReqs tid (handleChunk st (some tid) r b).1 rest →
      BoundedReqs tid st ((r, b) :: rest)

/-! ### Sender (client.py) -/

inductive TransferStatus
  | pending | connecting | transferring | retrying | verifying
  | completed | failed | cancelled
  deriving DecidableEq, Repr

def INITIAL_RETRY_DELAY : Nat := 1
def MAX_RETRY_DELAY : Nat := 30
def maxRetriesDefault : Nat := 5

/-- `f.seek(pos); f.read(size)` on an immutable file. -/
def readChunk (file : List Nat) (pos size : Nat) : List Nat :=
  (file.drop pos).take size

/-- The `Content-Range` header built in `_send_chunks`. -/
def contentRangeHeader (start finish total : Nat) : String :=
  "bytes " ++ toString start ++ "-" ++ toString finish ++ "/" ++ toString total

/-- Observable actions of the sender's per-chunk attempt loop. -/
inductive SendEvent
  | post (start : Nat) (bytes : List Nat) (range : String)
  | setStatus (s : TransferStatus)
  | sleep (d : Nat)
  deriving DecidableEq, Repr

structure AttemptResult where
  events : List SendEvent
  success : Bool
  status : TransferStatus
  error : Option String
  sentBytes : Nat
  retryDelay : Nat
  retryCount : Nat
  deriving DecidableEq, Repr

/-- The per-chunk retry loop of `_send_chunks` (client.py lines 366-418).
Each attempt re-reads the chunk from `chunkStart` (the re-seek on retry);
`outcomes` is the network oracle: `none` = HTTP 200, `some msg` = the
message of the transport error or non-200 response raised for that
attempt. -/
def attemptChunk (file : List Nat) (chunkStart chunkSize : Nat)
    (range : String) (maxRetries : Nat) :
    Nat → Nat → List (Option String) → AttemptResult
  | _, delay, [] =>
    { events := [], success := false, status := .transferring, error := none
      sentBytes := chunkStart, retryDelay := delay, retryCount := 0 }
  | attempt, delay, outcome :: rest =>
    match outcome with
    | none =>
      { events := [.post chunkStart (readChunk file chunkStart chunkSize) range]
        success := true, status := .transferring
        error := none
        sentBytes := chunkStart + (readChunk file chunkStart chunkSize).length
        retryDelay := INITIAL_RETRY_DELAY, retryCount := 0 }
    | some msg =>
      if attempt = maxRetries then
        { events := [.post chunkStart (readChunk file chunkStart chunkSize) range,
            .setStatus .retrying, .setStatus .failed]
          success := false, status := .failed
          error := some ("Max retries exceeded: " ++ msg)
          sentBytes := chunkStart, retryDelay := delay
          retryCount := attempt + 1 }
      else
        let res := attemptChunk file chunkStart chunkSize range maxRetries
          (attempt + 1) (min (delay * 2) MAX_RETRY_DELAY) rest
        { res with
          events :=
            .post chunkStart (readChunk file chunkStart chunkSize) range ::
            .setStatus .retrying :: .sleep delay :: res.events }

/-- Start offsets of the chunks posted by the `while sent_bytes < total_size`
loop of `_send_chunks`, for a source file of exactly `totalSize` bytes
(each read returns `min chunkSize (totalSize - pos)` bytes). -/
def chunkStarts (chunkSize : Nat) (totalSize : Nat) (sentBytes : Nat) :
    List Nat :=
  if h : sentBytes < totalSize ∧ 0 < chunkSize then
    sentBytes ::
      chunkStarts chunkSize totalSize
        (sentBytes + min chunkSize (totalSize - sentBytes))
  else []
  termination_by totalSize - sentBytes
  decreasing_by
    have h1 : 0 < min chunkSize (totalSize - sentBytes) := by
      rcases h with ⟨hlt, hcs⟩
      exact Nat.lt_min.mpr ⟨hcs, Nat.sub_pos_of_lt hlt⟩
    omega

/-- `send_file` after a successful init (client.py lines 230-234): the
resume offset is stored into `sent_bytes` only when it is positive;
`sent_bytes` starts at 0. -/
def clientSentBytesAfterInit (resumeOffset : Int) : Int :=
  if resumeOffset > 0 then resumeOffset else 0

/-! ### Folder sends and the manager's started callback
(client.py `_send_folder`/`send_file`, transfer.py `_on_outgoing_started`) -/

structure COutgoing where
  filePath : String
  originalPath : String
  deriving DecidableEq, Repr

/-- `send_file(file_path, …, original_path)`: builds the OutgoingTransfer
and fires the started event; the second component is the value of
`transfer.file_path` at the moment `on_transfer_started` runs. -/
def sendFileStarted (filePath : String) (originalPath : Option String) :
    COutgoing × String :=
  let t : COutgoing :=
    { filePath := filePath, originalPath := originalPath.getD filePath }
  (t, t.filePath)

/-- `_send_folder`: send the archive via `send_file` (which fires the
started event), then reassign `transfer.file_path` to the folder path. -/
def sendFolderStarted (folderPath archivePath : String) :
    COutgoing × String :=
  let r := sendFileStarted archivePath (some folderPath)
  ({ r.1 with filePath := folderPath }, r.2)

inductive TransferDirection | outgoing | incoming
  deriving DecidableEq, Repr

structure MQueuedTransfer where
  id : String
  direction : TransferDirection
  filename : String
  totalSize : Int
  transferredBytes : Int := 0
  status : String := "pending"
  filePath : Option String := none
  outgoingAttached : Bool := false
  deriving DecidableEq, Repr

/-- `_on_outgoing_started` (transfer.py lines 304-312): attach the
OutgoingTransfer to the first outgoing queue entry whose `_file_path`
equals the event transfer's `file_path`, and set it to `connecting`. -/
def onOutgoingStarted : List MQueuedTransfer → String → List MQueuedTransfer
  | [], _ => []
  | q :: rest, p =>
    if q.filePath = some p ∧ q.direction = .outgoing then
      { q with outgoingAttached := true, status := "connecting" } :: rest
    else
      q :: onOutgoingStarted rest p

/-! ### Cancellation vs completion race (transfer.py `cancel_transfer`
lines 191-210, `_on_outgoing_completed` lines 324-334; client.py
`_send_chunks` flag check lines 349-351 and `_complete_transfer`) -/

structure MgrRaceState where
  queuedStatus : String
  outgoingAttached : Bool
  cancelFlag : Bool
  senderStatus : TransferStatus
  deriving DecidableEq, Repr

inductive MgrAct
  /-- `TransferManager.cancel_transfer`: no-op when already completed,
  otherwise sets the queued status to cancelled; the client cancel flag
  is only scheduled as a separate task (`asyncio.create_task`). -/
  | cancelTransfer
  /-- The scheduled task body: `client.cancel_transfer` sets the flag. -/
  | setCancelFlag
  /-- Top of the sender's chunk loop: observe the flag if set. -/
  | senderCheckFlag
  /-- The sender finishes `/transfer/complete` with 200 (only reachable
  while it has not observed cancellation) and fires
  `on_transfer_completed`, whose manager callback sets the attached
  queued entry to completed. -/
  | senderCompleted
  deriving DecidableEq, Repr

def mgrStep (s : MgrRaceState) : MgrAct → MgrRaceState
  | .cancelTransfer =>
    if s.queuedStatus = "completed" then s
    else { s with queuedStatus := "cancelled" }
  | .setCancelFlag => { s with cancelFlag := true }
  | .senderCheckFlag =>
    if s.cancelFlag then { s with senderStatus := .cancelled } else s
  | .senderCompleted =>
    if s.senderStatus = .cancelled then s
    else if s.outgoingAttached then
      { s with senderStatus := .completed, queuedStatus := "completed" }
    else
      { s with senderStatus := .completed }

def mgrRun (s : MgrRaceState) (acts : List MgrAct) : MgrRaceState :=
  acts.foldl mgrStep s

/-- An active outgoing transfer: attached to the queue entry, sender in
its transfer loop, no cancellation requested yet. -/
def mgrActiveState : MgrRaceState :=
  { queuedStatus := "transferring", outgoingAttached := true
    cancelFlag := false, senderStatus := .transferring }

/-! ### State store (state.py) -/

def STATE_CLEANUP_AGE : Int := 86400

structure PersistedState where
  transferId : String
  filePath : String := ""
  filename : String := ""
  peerUrl : String := ""
  peerName : String := ""
  totalSize : Int := 0
  sentBytes : Int := 0
  fileHash : String := ""
  direction : String := "outgoing"
  createdAt : Int := 0
  updatedAt : Int := 0
  deriving DecidableEq, Repr

/-- `TransferState.is_expired`. -/
def isExpired (now : Int) (st : PersistedState) : Bool :=
  now - st.updatedAt > STATE_CLEANUP_AGE

/-- Result of reading and JSON-parsing `transfers.json`: the file may be
absent, fail to parse, or parse into a list of items of which the
malformed ones (`KeyError`/`TypeError` in `from_dict`) are `none`. -/
inductive StateFileContent
  | missing
  | corrupt
  | parsed (items : List (Option PersistedState))

/-- One loop iteration of `_load`: skip malformed and expired items,
otherwise store under the transfer-id key. -/
def loadItemStep (now : Int) (acc : List (String × PersistedState)) :
    Option PersistedState → List (String × PersistedState)
  | none => acc
  | some s => if isExpired now s then acc else dictInsert acc s.transferId s

/-- `StateManager._load` (state.py lines 71-90). -/
def loadStates (prior : List (String × PersistedState))
    (content : StateFileContent) (now : Int) :
    List (String × PersistedState) :=
  match content with
  | .missing => prior
  | .corrupt => []
  | .parsed items => items.foldl (loadItemStep now) prior

/-- `StateManager._cleanup_expired` (state.py lines 110-117): collect the
expired ids, then delete each. -/
def cleanupExpired (states : List (String × PersistedState)) (now : Int) :
    List (String × PersistedState) :=
  ((states.filter (fun p => isExpired now p.2)).map Prod.fst).foldl
    (fun acc tid => dictErase acc tid) states

/-- `StateManager._save` (state.py lines 92-108): sweep expired entries,
then write the remaining ones; returns the new in-memory states and the
list of records written to disk. -/
def saveStates (states : List (String × PersistedState)) (now : Int) :
    List (String × PersistedState) × List PersistedState :=
  (cleanupExpired states now, (cleanupExpired states now).map Prod.snd)

/-! ### Reachable receiver states -/

/-- One request handled by the receiver. -/
inductive ServerStep : ServerState → ServerState → Prop
  | init (st : ServerState) (req : InitRequest) (newId : String) :
      ServerStep st (handleInit st req newId).1
  | chunk (st : ServerState) (tid range : Option String) (body : List Nat) :
      ServerStep st (handleChunk st tid range body).1
  | complete (st : ServerState) (sha : List Nat → String)
      (tid : Option String) :
      ServerStep st (handleComplete sha st tid).1
  | cancel (st : ServerState) (tid : String) :
      ServerStep st (handleCancel st tid).1

/-- Receiver states reachable from the empty `_transfers` dictionary. -/
def Reachable (st : ServerState) : Prop :=
  Relation.ReflTransGen ServerStep [] st

/-- The invariant every registered transfer satisfies: it was created by
`_handle_init`, so its filename and size passed the truthiness check, its
byte counter is a sum of chunk lengths, and its temp path was assigned. -/
def GoodTransfer (t : IncomingTransfer) : Prop :=
  t.filename ≠ "" ∧ t.totalSize ≠ 0 ∧ 0 ≤ t.receivedBytes ∧ t.tempPath ≠ none

def GoodState (st : ServerState) : Prop :=
  ∀ p ∈ st, GoodTransfer p.2

/-! ## Theorems -/

/-! ### Dictionary lemmas -/

theorem dictLookup_mem {α : Type} {m : List (String × α)} {k : String} {v : α}
    (h : dictLookup m k = some v) : (k, v) ∈ m := by
  induction m with
  | nil => simp [dictLookup] at h
  | cons p rest ih =>
    obtain ⟨k0, v0⟩ := p
    by_cases hk : k0 = k
    · subst hk
      simp [dictLookup] at h
      subst h
      exact List.mem_cons_self _ _
    · simp [dictLookup, hk] at h
      exact List.mem_cons_of_mem _ (ih h)

theorem mem_dictInsert {α : Type} {m : List (String × α)} {k : String} {v : α}
    {p : String × α} (h : p ∈ dictInsert m k v) : p = (k, v) ∨ p ∈ m := by
  unfold dictInsert at h
  by_cases hc : (dictLookup m k).isSome
  · rw [if_pos hc] at h
    rcases List.mem_map.mp h with ⟨q, hq, hpq⟩
    by_cases hq1 : q.1 = k
    · left; rw [if_pos hq1] at hpq; exact hpq.symm
    · right; rw [if_neg hq1] at hpq; exact hpq ▸ hq
  · rw [if_neg hc] at h
    rcases List.mem_append.mp h with h | h
    · right; exact h
    · left; simpa using h

theorem dictLookup_dictInsert_self {α : Type} (m : List (String × α))
    (k : String) (v : α) : dictLookup (dictInsert m k v) k = some v := by
  unfold dictInsert
  by_cases hc : (dictLookup m k).isSome
  · simp only [hc, if_true]
    induction m with
    | nil => simp [dictLookup] at hc
    | cons p rest ih =>
      obtain ⟨k0, v0⟩ := p
      simp only [List.map_cons]
      by_cases hk : k0 = k
      · subst hk
        have hfst : (k0, v0).1 = k0 := rfl
        rw [if_pos hfst]
        simp [dictLookup]
      · rw [if_neg hk]
        simp only [dictLookup, if_neg hk]
        simp only [dictLookup, if_neg hk] at hc
        exact ih hc
  · simp only [hc, if_false]
    induction m with
    | nil => simp [dictLookup]
    | cons p rest ih =>
      obtain ⟨k0, v0⟩ := p
      by_cases hk : k0 = k
      · subst hk; simp [dictLookup] at hc
      · simp only [List.cons_append, dictLookup, if_neg hk]
        simp only [dictLookup, if_neg hk] at hc
        exact ih hc

theorem dictLookup_dictErase_self {α : Type} (m : List (String × α))
    (k : String) : dictLookup (dictErase m k) k = none := by
  induction m with
  | nil => simp [dictErase, dictLookup]
  | cons p rest ih =>
    obtain ⟨k0, v0⟩ := p
    by_cases hk : k0 = k
    · subst hk; simpa [dictErase, dictLookup] using ih
    · simpa [dictErase, dictLookup, hk] using ih

/-! ### Characterization of the chunk handler -/

theorem handleChunk_accepted {st : ServerState} {tid : String}
    {t : IncomingTransfer} (hid : tid ≠ "")
    (hlook : dictLookup st tid = some t) (htp : t.tempPath ≠ none)
    {range : Option String} (hpos : parseStartByte range = t.receivedBytes)
    (body : List Nat) :
    handleChunk st (some tid) range body =
      (dictInsert st tid (applyChunkBody t body),
        .ok (t.receivedBytes + body.length) t.totalSize) := by
  unfold handleChunk
  simp [hid, hlook, hpos, htp, applyChunkBody]

theorem handleChunk_rejected {st : ServerState} {tid : String}
    {t : IncomingTransfer} (hid : tid ≠ "")
    (hlook : dictLookup st tid = some t) {range : Option String}
    (hpos : parseStartByte range ≠ t.receivedBytes) (body : List Nat) :
    handleChunk st (some tid) range body =
      (st, .badPosition t.receivedBytes (parseStartByte range)) := by
  unfold handleChunk
  simp [hid, hlook, hpos]

theorem handleChunk_state_cases (st : ServerState) (tid : String)
    (range : Option String) (body : List Nat) :
    (handleChunk st (some tid) range body).1 = st ∨
    ∃ t, dictLookup st tid = some t ∧
      parseStartByte range = t.receivedBytes ∧
      (handleChunk st (some tid) range body).1 =
        dictInsert st tid (applyChunkBody t body) := by
  by_cases hid : tid = ""
  · left; simp [handleChunk, hid]
  rcases hlook : dictLookup st tid with _ | t
  · left; simp [handleChunk, hid, hlook]
  by_cases hpos : parseStartByte range ≠ t.receivedBytes
  · left; simp [handleChunk, hid, hlook, hpos]
  by_cases htp : t.tempPath = none
  · left; simp [handleChunk, hid, hlook, hpos, htp]
  · right
    refine ⟨t, rfl, not_ne_iff.mp hpos, ?_⟩
    simp [handleChunk, hid, hlook, not_ne_iff.mp hpos, htp]

/-! ### The `GoodState` invariant -/

theorem truthyStr_getD {o : Option String} (h : truthyStr o = true) :
    o.getD "" ≠ "" := by
  rcases o with _ | s
  · simp [truthyStr] at h
  · simpa [truthyStr] using h

theorem truthyInt_getD {o : Option Int} (h : truthyInt o = true) :
    o.getD 0 ≠ 0 := by
  rcases o with _ | n
  · simp [truthyInt] at h
  · simpa [truthyInt] using h

theorem goodTransfer_newTransferOfInit {req : InitRequest} (newId : String)
    (hf : truthyStr req.filename = true) (hs : truthyInt req.size = true) :
    GoodTransfer (newTransferOfInit req newId) :=
  ⟨truthyStr_getD hf, truthyInt_getD hs, le_refl 0, by simp [newTransferOfInit]⟩

theorem goodState_handleInit {st : ServerState} (hg : GoodState st)
    (req : InitRequest) (newId : String) :
    GoodState (handleInit st req newId).1 := by
  unfold handleInit
  by_cases hmiss : (!(truthyStr req.filename) || !(truthyInt req.size)) = true
  · simpa [hmiss] using hg
  · rw [if_neg hmiss]
    have htr : truthyStr req.filename = true ∧ truthyInt req.size = true := by
      constructor
      · cases hx : truthyStr req.filename
        · exact absurd (by simp [hx]) hmiss
        · rfl
      · cases hx : truthyInt req.size
        · exact absurd (by simp [hx]) hmiss
        · rfl
    rcases hr : initResumeHit st req with _ | ⟨rid, existing⟩
    · simp only [hr]
      intro p hp
      rcases mem_dictInsert hp with hpe | hpm
      · subst hpe
        exact goodTransfer_newTransferOfInit newId htr.1 htr.2
      · exact hg p hpm
    · simpa [hr] using hg

theorem goodState_handleChunk {st : ServerState} (hg : GoodState st)
    (tid range : Option String) (body : List Nat) :
    GoodState (handleChunk st tid range body).1 := by
  unfold handleChunk
  split
  · exact hg
  split
  · exact hg
  split
  · exact hg
  next t hlook =>
    split
    · exact hg
    split
    · exact hg
    intro p hp
    rcases mem_dictInsert hp with hpe | hpm
    · subst hpe
      rcases hg _ (dictLookup_mem hlook) with ⟨h1, h2, h3, h4⟩
      have h3a : (0 : Int) ≤ t.receivedBytes := h3
      refine ⟨h1, h2, ?_, h4⟩
      have hb : (0 : Int) ≤ body.length := Int.ofNat_nonneg _
      simp only [applyChunkBody]
      omega
    · exact hg p hpm

theorem goodState_handleComplete {st : ServerState} (hg : GoodState st)
    (sha : List Nat → String) (tid : Option String) :
    GoodState (handleComplete sha st tid).1 := by
  unfold handleComplete
  split
  · exact hg
  split
  · exact hg
  split
  · exact hg
  next t hlook =>
    split
    · exact hg
    split
    · intro p hp
      rcases mem_dictInsert hp with hpe | hpm
      · subst hpe
        rcases hg _ (dictLookup_mem hlook) with ⟨h1, h2, h3, h4⟩
        exact ⟨h1, h2, h3, h4⟩
      · exact hg p hpm
    · intro p hp
      exact hg p (List.mem_of_mem_filter hp)

theorem goodState_handleCancel {st : ServerState} (hg : GoodState st)
    (tid : String) : GoodState (handleCancel st tid).1 := by
  unfold handleCancel
  split
  · exact hg
  · intro p hp
    exact hg p (List.mem_of_mem_filter hp)

/-- Every reachable receiver state satisfies `GoodState`: all registered
transfers have a non-empty filename, a non-zero declared size, a
non-negative byte counter and an assigned temp path. -/
theorem reachable_goodState {st : ServerState} (h : Reachable st) :
    GoodState st := by
  induction h with
  | refl => intro p hp; simp at hp
  | tail _ hstep ih =>
    cases hstep with
    | init req newId => exact goodState_handleInit ih req newId
    | chunk tid range body => exact goodState_handleChunk ih tid range body
    | complete sha tid => exact goodState_handleComplete ih sha tid
    | cancel tid => exact goodState_handleCancel ih tid

/-! ### Characterization of the complete handler -/

theorem handleComplete_incomplete {sha : List Nat → String}
    {st : ServerState} {tid : String} {t : IncomingTransfer}
    (hid : tid ≠ "") (hlook : dictLookup st tid = some t)
    (hne : t.receivedBytes ≠ t.totalSize) :
    handleComplete sha st (some tid) =
      (st, .incomplete t.receivedBytes t.totalSize) := by
  unfold handleComplete
  simp [hid, hlook, hne]

theorem handleComplete_mismatch {sha : List Nat → String}
    {st : ServerState} {tid : String} {t : IncomingTransfer}
    (hid : tid ≠ "") (hlook : dictLookup st tid = some t)
    (heq : t.receivedBytes = t.totalSize) (hexp : t.expectedHash ≠ "")
    (hne : sha t.hashed ≠ t.expectedHash) :
    handleComplete sha st (some tid) =
      (dictInsert st tid
        { t with
          error := some "Hash mismatch - file may be corrupted"
          tempExists := false },
        .hashMismatch t.expectedHash (sha t.hashed)) := by
  unfold handleComplete
  simp [hid, hlook, heq, hexp, hne]

theorem handleComplete_success {sha : List Nat → String}
    {st : ServerState} {tid : String} {t : IncomingTransfer}
    (hid : tid ≠ "") (hlook : dictLookup st tid = some t)
    (heq : t.receivedBytes = t.totalSize)
    (hok : t.expectedHash = "" ∨ sha t.hashed = t.expectedHash) :
    handleComplete sha st (some tid) =
      (dictErase st tid, .completedOk (t.expectedHash ≠ "")) := by
  unfold handleComplete
  rcases hok with hok | hok
  · simp [hid, hlook, heq, hok]
  · simp [hid, hlook, heq, hok]

/-! ### Claim theorems -/

/-- **C3.** For a `/transfer/chunk` request on a known transfer-id in a
reachable receiver state, the chunk is accepted exactly when the declared
start offset equals the transfer's current `received_bytes`: on
acceptance `received_bytes` increases by exactly the body length and the
body is appended to the temp file; on mismatch the response is 400 with
`expected = received_bytes` and `received = start`, and the state (byte
counter, temp file, running hash) is unchanged. -/
theorem chunk_strict_append_order {st : ServerState} {t : IncomingTransfer}
    (tid : String) (hreach : Reachable st) (hid : tid ≠ "")
    (hlook : dictLookup st tid = some t)
    (range : Option String) (body : List Nat) :
    (parseStartByte range = t.receivedBytes →
      handleChunk st (some tid) range body =
        (dictInsert st tid (applyChunkBody t body),
          .ok (t.receivedBytes + body.length) t.totalSize) ∧
      (applyChunkBody t body).receivedBytes = t.receivedBytes + body.length ∧
      (applyChunkBody t body).tempData = t.tempData ++ body ∧
      (applyChunkBody t body).hashed = t.hashed ++ body ∧
      chunkStatus (handleChunk st (some tid) range body).2 = 200) ∧
    (parseStartByte range ≠ t.receivedBytes →
      handleChunk st (some tid) range body =
        (st, .badPosition t.receivedBytes (parseStartByte range)) ∧
      chunkStatus (handleChunk st (some tid) range body).2 = 400) := by
  have htp : t.tempPath ≠ none :=
    (reachable_goodState hreach _ (dictLookup_mem hlook)).2.2.2
  constructor
  · intro hpos
    have he := handleChunk_accepted hid hlook htp hpos body
    exact ⟨he, rfl, rfl, rfl, by simp [he, chunkStatus]⟩
  · intro hpos
    have he := handleChunk_rejected hid hlook hpos body
    exact ⟨he, by simp [he, chunkStatus]⟩

/-- Witness for C3: a fresh one-byte-pending transfer accepts a matching
chunk (200, counter 0 → 2) and rejects a mismatched one. -/
theorem chunk_strict_append_order_witness :
    handleChunk
        ((handleInit [] { filename := some "a.bin", size := some 4 } "t1").1)
        (some "t1") (some "bytes 0-1/4") [5, 6] =
      (dictInsert ((handleInit [] { filename := some "a.bin", size := some 4 } "t1").1)
        "t1" (applyChunkBody (newTransferOfInit { filename := some "a.bin", size := some 4 } "t1") [5, 6]),
        .ok 2 4) := by
  have h :=
    (@chunk_strict_append_order
      ((handleInit [] { filename := some "a.bin", size := some 4 } "t1").1)
      (newTransferOfInit { filename := some "a.bin", size := some 4 } "t1")
      "t1"
      (Relation.ReflTransGen.single
        (ServerStep.init [] { filename := some "a.bin", size := some 4 } "t1"))
      (by decide) (by decide)
      (some "bytes 0-1/4") [5, 6]).1 (by decide)
  exact h.1

/-- **C10.** When the Content-Range header of a `/transfer/chunk` request
is missing, lacks the `"bytes "` prefix, or its start token does not
parse as an integer, the receiver treats the start offset as 0, so on a
known transfer-id the chunk is accepted (appended at offset 0) exactly
when `received_bytes = 0`, and otherwise rejected with 400 and no state
change. -/
theorem chunk_range_default_zero :
    parseStartByte none = 0 ∧
    (∀ h : String, charsStartsWith h.data ("bytes ".data) = false →
      parseStartByte (some h) = 0) ∧
    (∀ h : String, pyIntOfChars (rangeStartToken h.data) = none →
      parseStartByte (some h) = 0) ∧
    (∀ (st : ServerState) (tid : String) (t : IncomingTransfer)
        (range : Option String) (body : List Nat),
      Reachable st → tid ≠ "" → dictLookup st tid = some t →
      parseStartByte range = 0 →
      (t.receivedBytes = 0 →
        handleChunk st (some tid) range body =
          (dictInsert st tid (applyChunkBody t body),
            .ok (0 + body.length) t.totalSize)) ∧
      (t.receivedBytes ≠ 0 →
        handleChunk st (some tid) range body =
          (st, .badPosition t.receivedBytes 0))) := by
  refine ⟨rfl, ?_, ?_, ?_⟩
  · intro h hpre
    simp [parseStartByte, hpre]
  · intro h hparse
    simp [parseStartByte, hparse]
  · intro st tid t range body hreach hid hlook hz
    have htp : t.tempPath ≠ none :=
      (reachable_goodState hreach _ (dictLookup_mem hlook)).2.2.2
    constructor
    · intro h0
      have hpos : parseStartByte range = t.receivedBytes := by rw [hz, h0]
      have he := handleChunk_accepted hid hlook htp hpos body
      rw [he, h0]
    · intro h0
      have hpos : parseStartByte range ≠ t.receivedBytes := by
        rw [hz]; exact fun hc => h0 hc.symm
      have he := handleChunk_rejected hid hlook hpos body
      rw [he, hz]

/-- Witness for C10: a missing header is accepted on a fresh transfer
(counter 0) and rejected after one byte arrived. -/
theorem chunk_range_default_zero_witness :
    handleChunk
        ((handleInit [] { filename := some "b.bin", size := some 2 } "t2").1)
        (some "t2") none [9] =
      (dictInsert ((handleInit [] { filename := some "b.bin", size := some 2 } "t2").1)
        "t2" (applyChunkBody (newTransferOfInit { filename := some "b.bin", size := some 2 } "t2") [9]),
        .ok (0 + 1) 2) := by
  have h :=
    (chunk_range_default_zero.2.2.2
      ((handleInit [] { filename := some "b.bin", size := some 2 } "t2").1)
      "t2"
      (newTransferOfInit { filename := some "b.bin", size := some 2 } "t2")
      none [9]
      (Relation.ReflTransGen.single
        (ServerStep.init [] { filename := some "b.bin", size := some 2 } "t2"))
      (by decide) (by decide) (by decide)).1 (by decide)
  exact h

/-- **C2.** `/transfer/complete` on a known transfer-id returns 200 with
status `"completed"` precisely when `received_bytes = total_size` and the
expected hash is empty or equals the computed digest; a non-empty
mismatching hash yields 400 carrying both hashes with the temp file
deleted; `received_bytes ≠ total_size` yields 400. -/
theorem complete_hash_verification (sha : List Nat → String)
    {st : ServerState} {t : IncomingTransfer} (tid : String)
    (hid : tid ≠ "") (hlook : dictLookup st tid = some t) :
    (isCompletedResponse (handleComplete sha st (some tid)).2 = true ↔
      t.receivedBytes = t.totalSize ∧
        (t.expectedHash = "" ∨ sha t.hashed = t.expectedHash)) ∧
    (∀ r, completeStatus r = 200 ↔ isCompletedResponse r = true) ∧
    (t.receivedBytes = t.totalSize → t.expectedHash ≠ "" →
      sha t.hashed ≠ t.expectedHash →
      handleComplete sha st (some tid) =
        (dictInsert st tid
          { t with
            error := some "Hash mismatch - file may be corrupted"
            tempExists := false },
          .hashMismatch t.expectedHash (sha t.hashed)) ∧
      ({ t with
          error := some "Hash mismatch - file may be corrupted"
          tempExists := false } : IncomingTransfer).tempExists = false ∧
      completeStatus (.hashMismatch t.expectedHash (sha t.hashed)) = 400) ∧
    (t.receivedBytes ≠ t.totalSize →
      handleComplete sha st (some tid) =
        (st, .incomplete t.receivedBytes t.totalSize) ∧
      completeStatus (.incomplete t.receivedBytes t.totalSize) = 400) := by
  refine ⟨?_, ?_, ?_, ?_⟩
  · constructor
    · intro hc
      by_cases heq : t.receivedBytes = t.totalSize
      · by_cases hok : t.expectedHash = "" ∨ sha t.hashed = t.expectedHash
        · exact ⟨heq, hok⟩
        · push_neg at hok
          rw [handleComplete_mismatch hid hlook heq hok.1 hok.2] at hc
          simp [isCompletedResponse] at hc
      · rw [handleComplete_incomplete hid hlook heq] at hc
        simp [isCompletedResponse] at hc
    · rintro ⟨heq, hok⟩
      rw [handleComplete_success hid hlook heq hok]
      rfl
  · intro r
    cases r <;> simp [completeStatus, isCompletedResponse]
  · intro heq hexp hne
    exact ⟨handleComplete_mismatch hid hlook heq hexp hne, rfl, rfl⟩
  · intro hne
    exact ⟨handleComplete_incomplete hid hlook hne, rfl⟩

/-- **C1 (counterexample).** The receiver does not check the chunk length
against the declared total size: starting from a freshly initialised
transfer of declared size 1, a 2-byte chunk at offset 0 is accepted with
200 and leaves `received_bytes = 2 > 1 = total_size`, refuting
`received_bytes ≤ total_size` after an accepted-chunk sequence. -/
theorem chunk_bound_counterexample :
    chunkStatus
        (handleChunk ((handleInit [] { filename := some "a.bin", size := some 1 } "t1").1)
          (some "t1") (some "bytes 0-1/1") [7, 7]).2 = 200 ∧
    (dictLookup
        (handleChunk ((handleInit [] { filename := some "a.bin", size := some 1 } "t1").1)
          (some "t1") (some "bytes 0-1/1") [7, 7]).1 "t1").map
      (fun t => decide (t.totalSize < t.receivedBytes)) = some true := by
  decide

/-- **C1 (amended).** `received_bytes` stays within `[0, total_size]`
after any sequence of `/transfer/chunk` requests provided every request
reaching the transfer carries a body no longer than the bytes remaining
under the declared total size (which the repository's own sender
guarantees by reading chunks from a file of exactly the declared size);
the receiver itself never rejects an oversized chunk. -/
theorem chunk_bound_invariant {tid : String} {st : ServerState}
    {reqs : List (Option String × List Nat)}
    (hb : BoundedReqs tid st reqs)
    (hinv : ∀ t, dictLookup st tid = some t →
      0 ≤ t.receivedBytes ∧ t.receivedBytes ≤ t.totalSize) :
    ∀ t1, dictLookup (runChunks tid st reqs) tid = some t1 →
      0 ≤ t1.receivedBytes ∧ t1.receivedBytes ≤ t1.totalSize := by
  induction hb with
  | nil st => exact hinv
  | cons st r b rest hbound _ ih =>
    refine fun t1 hlook1 => ih ?_ t1 hlook1
    intro t1 hlook1
    rcases handleChunk_state_cases st tid r b with hcase | ⟨t, hlookt, _, hcase⟩
    · rw [hcase] at hlook1
      exact hinv t1 hlook1
    · rw [hcase, dictLookup_dictInsert_self] at hlook1
      injection hlook1 with h1
      subst h1
      rcases hinv t hlookt with ⟨h0, h2⟩
      have hbd := hbound t hlookt
      have hrec : (applyChunkBody t b).receivedBytes =
          t.receivedBytes + b.length := rfl
      have htot : (applyChunkBody t b).totalSize = t.totalSize := rfl
      have hnn : (0 : Int) ≤ b.length := Int.ofNat_nonneg _
      rw [hrec, htot]
      omega

/-- Witness for C1 (amended): a 2-byte transfer receiving one in-bound
2-byte chunk ends with the counter within the declared size. -/
theorem chunk_bound_invariant_witness :
    0 ≤ (applyChunkBody
        (newTransferOfInit { filename := some "a.bin", size := some 2 } "t1")
        [7, 7]).receivedBytes ∧
    (applyChunkBody
        (newTransferOfInit { filename := some "a.bin", size := some 2 } "t1")
        [7, 7]).receivedBytes ≤
      (applyChunkBody
        (newTransferOfInit { filename := some "a.bin", size := some 2 } "t1")
        [7, 7]).totalSize := by
  refine @chunk_bound_invariant "t1"
    ((handleInit [] { filename := some "a.bin", size := some 2 } "t1").1)
    [(some "bytes 0-1/2", [7, 7])] ?_ ?_ _ (by decide)
  · refine BoundedReqs.cons _ _ _ _ ?_ (BoundedReqs.nil _)
    intro t h
    have h0 : dictLookup
        ((handleInit [] { filename := some "a.bin", size := some 2 } "t1").1) "t1" =
        some (newTransferOfInit { filename := some "a.bin", size := some 2 } "t1") := by
      decide
    rw [h0] at h
    injection h with h
    subst h
    decide
  · intro t h
    have h0 : dictLookup
        ((handleInit [] { filename := some "a.bin", size := some 2 } "t1").1) "t1" =
        some (newTransferOfInit { filename := some "a.bin", size := some 2 } "t1") := by
      decide
    rw [h0] at h
    injection h with h
    subst h
    decide

/-- On a resume hit, `_handle_init` answers `resuming` with the
transfer's current `received_bytes` and leaves the state untouched. -/
theorem handleInit_resume {st : ServerState} {t : IncomingTransfer}
    {rid : String} (hrid : rid ≠ "") (hlook : dictLookup st rid = some t)
    (hfn : t.filename ≠ "") (hsz : t.totalSize ≠ 0)
    (hsh : String) (newId : String) :
    handleInit st
      { filename := some t.filename, size := some t.totalSize
        hash := hsh, resumeId := some rid } newId
      = (st, .resuming rid t.receivedBytes) := by
  unfold handleInit initResumeHit
  simp [truthyStr, truthyInt, hfn, hsz, hrid, hlook]

/-- **C4.** An init request whose `resume_id` names a live transfer with
matching filename and size is answered `resuming` with
`transfer_id = resume_id` and `resume_offset` equal to the transfer's
current `received_bytes`, without touching the transfer table; the sender
stores that offset into `sent_bytes` and its chunk loop posts its first
chunk at exactly that offset. -/
theorem resume_init_round_trip {st : ServerState} {t : IncomingTransfer}
    (rid : String) (hreach : Reachable st) (hrid : rid ≠ "")
    (hlook : dictLookup st rid = some t) (hsh : String) (newId : String) :
    handleInit st
      { filename := some t.filename, size := some t.totalSize
        hash := hsh, resumeId := some rid } newId
      = (st, .resuming rid t.receivedBytes) ∧
    clientSentBytesAfterInit t.receivedBytes = t.receivedBytes ∧
    (∀ total csz : Nat, t.receivedBytes.toNat < total → 0 < csz →
      (chunkStarts csz total t.receivedBytes.toNat).headD 0 =
        t.receivedBytes.toNat) := by
  have hgood := reachable_goodState hreach _ (dictLookup_mem hlook)
  refine ⟨handleInit_resume hrid hlook hgood.1 hgood.2.1 hsh newId, ?_, ?_⟩
  · unfold clientSentBytesAfterInit
    have h0 : (0 : Int) ≤ t.receivedBytes := hgood.2.2.1
    by_cases hpos : t.receivedBytes > 0
    · rw [if_pos hpos]
    · rw [if_neg hpos]
      omega
  · intro total csz hlt hcs
    rw [chunkStarts]
    rw [dif_pos ⟨hlt, hcs⟩]
    rfl

/-- Witness for C4: resuming a half-received 2-byte transfer answers
offset 1 and the client resumes from byte 1. -/
theorem resume_init_round_trip_witness :
    handleInit
        (handleChunk
          ((handleInit [] { filename := some "a.bin", size := some 2 } "t1").1)
          (some "t1") (some "bytes 0-0/2") [7]).1
        { filename := some "a.bin", size := some 2
          hash := "", resumeId := some "t1" } "t9"
      = ((handleChunk
          ((handleInit [] { filename := some "a.bin", size := some 2 } "t1").1)
          (some "t1") (some "bytes 0-0/2") [7]).1, .resuming "t1" 1) := by
  have h :=
    (@resume_init_round_trip
      ((handleChunk
        ((handleInit [] { filename := some "a.bin", size := some 2 } "t1").1)
        (some "t1") (some "bytes 0-0/2") [7]).1)
      (applyChunkBody
        (newTransferOfInit { filename := some "a.bin", size := some 2 } "t1") [7])
      "t1"
      (Relation.ReflTransGen.tail
        (Relation.ReflTransGen.single
          (ServerStep.init [] { filename := some "a.bin", size := some 2 } "t1"))
        (ServerStep.chunk _ (some "t1") (some "bytes 0-0/2") [7]))
      (by decide) (by decide) "" "t9").1
  exact h

/-- **C6 (code behavior).** `/transfer/init` for a zero-byte file is
rejected: `not total_size` is true for the declared size 0, so the
request falls into the missing-fields branch and gets 400 instead of a
fresh transfer-id — zero-byte transfers can never start. -/
theorem zero_byte_init_rejected :
    handleInit [] { filename := some "empty.bin", size := some 0, hash := "e3b0" } "t1"
      = ([], .missingFields) ∧
    initStatus .missingFields = 400 ∧
    truthyInt (some 0) = false := by
  decide

/-- **C5.** When all six attempts for a chunk fail (the initial attempt
plus `max_retries = 5` retries), the sender sets RETRYING on every
failure, re-posts the identical chunk — same start offset, same re-read
bytes, same Content-Range header — before each of the 5 retries, sleeps
1 s, 2 s, 4 s, 8 s, 16 s between attempts (each next delay being
`min (2·delay) 30`), and finally ends FAILED with an error message that
is `"Max retries exceeded: "` followed by the last failure's message. -/
theorem chunk_retry_backoff (file : List Nat) (cs sz : Nat) (range : String)
    (m0 m1 m2 m3 m4 m5 : String) :
    attemptChunk file cs sz range maxRetriesDefault 0 INITIAL_RETRY_DELAY
        [some m0, some m1, some m2, some m3, some m4, some m5] =
      { events :=
          [.post cs (readChunk file cs sz) range, .setStatus .retrying, .sleep 1,
           .post cs (readChunk file cs sz) range, .setStatus .retrying, .sleep 2,
           .post cs (readChunk file cs sz) range, .setStatus .retrying, .sleep 4,
           .post cs (readChunk file cs sz) range, .setStatus .retrying, .sleep 8,
           .post cs (readChunk file cs sz) range, .setStatus .retrying, .sleep 16,
           .post cs (readChunk file cs sz) range, .setStatus .retrying,
           .setStatus .failed]
        success := false
        status := .failed
        error := some ("Max retries exceeded: " ++ m5)
        sentBytes := cs
        retryDelay := 30
        retryCount := 6 } := by
  rfl

/-- **C7 (code behavior).** For a folder send, `_send_folder` reassigns
`transfer.file_path` to the directory only after `send_file` returns, so
the started event fires while `file_path` is still the temporary archive
path; the manager's `_on_outgoing_started` lookup by
`_file_path == transfer.file_path` therefore misses the queued folder
entry, which stays `"pending"` and never gets its OutgoingTransfer
attached. -/
theorem folder_started_event_misses_queue :
    (sendFolderStarted "/home/user/Photos" "/tmp/pack/Photos.tar.gz").2
      = "/tmp/pack/Photos.tar.gz" ∧
    onOutgoingStarted
        [{ id := "q1", direction := .outgoing, filename := "Photos/"
           totalSize := 10, filePath := some "/home/user/Photos" }]
        (sendFolderStarted "/home/user/Photos" "/tmp/pack/Photos.tar.gz").2
      = [{ id := "q1", direction := .outgoing, filename := "Photos/"
           totalSize := 10, filePath := some "/home/user/Photos" }] ∧
    (onOutgoingStarted
        [{ id := "q1", direction := .outgoing, filename := "Photos/"
           totalSize := 10, filePath := some "/home/user/Photos" }]
        (sendFolderStarted "/home/user/Photos" "/tmp/pack/Photos.tar.gz").2).map
      (fun q => (q.status, q.outgoingAttached))
      = [("pending", false)] := by
  decide

/-- **C8 (code behavior).** A queued transfer cancelled while the sender
is already past its last flag check still transitions to `"completed"`:
`cancel_transfer` marks it cancelled (and even if its scheduled flag-set
task runs), the sender's completion callback `_on_outgoing_completed`
unconditionally overwrites the status with `"completed"`. -/
theorem cancelled_then_completed :
    (mgrRun mgrActiveState [.cancelTransfer]).queuedStatus = "cancelled" ∧
    (mgrRun mgrActiveState [.cancelTransfer, .setCancelFlag]).queuedStatus
      = "cancelled" ∧
    (mgrRun mgrActiveState
        [.cancelTransfer, .setCancelFlag, .senderCompleted]).queuedStatus
      = "completed" := by
  decide

/-! ### State-store lemmas -/

theorem mem_foldl_loadItemStep (now : Int) :
    ∀ (items : List (Option PersistedState))
      (acc : List (String × PersistedState)),
      (∀ p ∈ acc, isExpired now p.2 = false) →
      ∀ p ∈ items.foldl (loadItemStep now) acc, isExpired now p.2 = false := by
  intro items
  induction items with
  | nil => exact fun acc hacc p hp => hacc p hp
  | cons item rest ih =>
    intro acc hacc p hp
    simp only [List.foldl_cons] at hp
    refine ih _ ?_ p hp
    intro q hq
    cases item with
    | none => exact hacc q hq
    | some s =>
      simp only [loadItemStep] at hq
      by_cases hexp : isExpired now s = true
      · rw [if_pos hexp] at hq
        exact hacc q hq
      · rw [if_neg hexp] at hq
        rcases mem_dictInsert hq with hqe | hqm
        · subst hqe
          exact Bool.eq_false_iff.mpr hexp
        · exact hacc q hqm

theorem foldl_dictErase_eq_filter {α : Type} :
    ∀ (keys : List String) (m : List (String × α)),
      keys.foldl (fun acc k => dictErase acc k) m
        = m.filter (fun p => !(keys.contains p.1)) := by
  intro keys
  induction keys with
  | nil =>
    intro m
    simp
  | cons k ks ih =>
    intro m
    simp only [List.foldl_cons]
    rw [ih (dictErase m k)]
    unfold dictErase
    rw [List.filter_filter]
    apply List.filter_congr
    intro p hp
    by_cases hk : p.1 = k
    · simp [hk]
    · simp [hk]

theorem cleanupExpired_subset_not_expired
    (states : List (String × PersistedState)) (now : Int) :
    ∀ p ∈ cleanupExpired states now,
      p ∈ states ∧ isExpired now p.2 = false := by
  intro p hp
  unfold cleanupExpired at hp
  rw [foldl_dictErase_eq_filter] at hp
  have hmem := List.mem_of_mem_filter hp
  have hcond := List.of_mem_filter hp
  refine ⟨hmem, ?_⟩
  by_contra hexp
  have hexp1 : isExpired now p.2 = true := by
    cases hx : isExpired now p.2
    · exact absurd hx hexp
    · rfl
  have hmemk : p.1 ∈ (states.filter (fun q => isExpired now q.2)).map Prod.fst :=
    List.mem_map_of_mem _ (List.mem_filter.mpr ⟨hmem, hexp1⟩)
  have hce : ((states.filter (fun q => isExpired now q.2)).map Prod.fst).contains p.1
      = true := List.elem_eq_true_of_mem hmemk
  rw [hce] at hcond
  exact Bool.false_ne_true hcond

theorem cleanupExpired_eq_filter (states : List (String × PersistedState))
    (now : Int) (hnd : (states.map Prod.fst).Nodup) :
    cleanupExpired states now
      = states.filter (fun p => !(isExpired now p.2)) := by
  unfold cleanupExpired
  rw [foldl_dictErase_eq_filter]
  apply List.filter_congr
  intro p hp
  by_cases hexp : isExpired now p.2 = true
  · have hmemk : p.1 ∈ (states.filter (fun q => isExpired now q.2)).map Prod.fst :=
      List.mem_map_of_mem _ (List.mem_filter.mpr ⟨hp, hexp⟩)
    have hce : ((states.filter (fun q => isExpired now q.2)).map Prod.fst).contains p.1
        = true := List.elem_eq_true_of_mem hmemk
    rw [hce, hexp]
  · have hexp1 : isExpired now p.2 = false := Bool.eq_false_iff.mpr hexp
    have hcont :
        ((states.filter (fun q => isExpired now q.2)).map Prod.fst).contains p.1
          = false := by
      cases hc : ((states.filter (fun q => isExpired now q.2)).map
          Prod.fst).contains p.1
      · rfl
      · exfalso
        have hmemk := List.mem_of_elem_eq_true hc
        rcases List.mem_map.mp hmemk with ⟨q, hqf, hq1⟩
        have hqs := List.mem_of_mem_filter hqf
        have hqexp := List.of_mem_filter hqf
        have hqp : q = p := List.inj_on_of_nodup_map hnd hqs hp hq1
        subst hqp
        rw [hexp1] at hqexp
        exact Bool.false_ne_true hqexp
    rw [hcont, hexp1]

/-- **C9.** `StateManager`: a corrupted `transfers.json` resets the store
to empty on load; loading keeps no entry whose `updated_at` lies more
than 86,400 s in the past; every save runs the same expiry sweep first,
so no expired entry is written, and (keys being unique, as for a Python
dict) the swept store is exactly the non-expired entries. -/
theorem state_store_expiry_and_corruption :
    (∀ (prior : List (String × PersistedState)) (now : Int),
      loadStates prior .corrupt now = []) ∧
    (∀ (items : List (Option PersistedState)) (now : Int),
      ∀ p ∈ loadStates [] (.parsed items) now, isExpired now p.2 = false) ∧
    (∀ (states : List (String × PersistedState)) (now : Int),
      ∀ s ∈ (saveStates states now).2, isExpired now s = false) ∧
    (∀ (states : List (String × PersistedState)) (now : Int),
      (states.map Prod.fst).Nodup →
      saveStates states now
        = (states.filter (fun p => !(isExpired now p.2)),
           (states.filter (fun p => !(isExpired now p.2))).map Prod.snd)) := by
  refine ⟨fun _ _ => rfl, ?_, ?_, ?_⟩
  · intro items now p hp
    exact mem_foldl_loadItemStep now items [] (by simp) p hp
  · intro states now s hs
    rcases List.mem_map.mp hs with ⟨p, hpc, hps⟩
    have h := (cleanupExpired_subset_not_expired states now p hpc).2
    rw [hps] at h
    exact h
  · intro states now hnd
    unfold saveStates
    rw [cleanupExpired_eq_filter states now hnd]

/-- Witness for C9: in a store loaded from one stale and one fresh entry,
the surviving entry is not expired. -/
theorem state_store_expiry_and_corruption_witness :
    isExpired 100000
      ({ transferId := "new", updatedAt := 90000 } : PersistedState) = false := by
  exact state_store_expiry_and_corruption.2.1
    [some { transferId := "old", updatedAt := 0 },
     some { transferId := "new", updatedAt := 90000 }]
    100000
    ("new", { transferId := "new", updatedAt := 90000 }) (by decide)

/-- Witness for C2: a fully received transfer with no declared hash
completes with 200. -/
theorem complete_hash_verification_witness :
    isCompletedResponse
      ((handleComplete (fun _ => "d")
        (handleChunk
          ((handleInit [] { filename := some "c.bin", size := some 2 } "t3").1)
          (some "t3") (some "bytes 0-1/2") [1, 2]).1
        (some "t3")).2) = true := by
  exact (@complete_hash_verification (fun _ => "d")
    ((handleChunk
      ((handleInit [] { filename := some "c.bin", size := some 2 } "t3").1)
      (some "t3") (some "bytes 0-1/2") [1, 2]).1)
    (applyChunkBody
      (newTransferOfInit { filename := some "c.bin", size := some 2 } "t3") [1, 2])
    "t3" (by decide) (by decide)).1.mpr (by decide)

end LanTransfer
